import Mathlib

/-!
Shallow embedding of the templar auto-update daemon
(src/templar/autoupdate.py) and verification of its specification.

External effects (git commands via GitPython, subprocess calls, the
environment) are modelled by a `World` record that fixes the outcome of
every external operation for one cycle; the Python methods become pure
functions of that record, returning both their Python-level result
(`Except` for code that can raise) and the trace of external commands
they issued.
-/

deriving instance DecidableEq for Except

namespace Templar

/-- Python exception values relevant to autoupdate.py, all subclasses of
`Exception` (so all are caught by a bare `except Exception`).
`gitCommandError` is GitPython's `git.GitCommandError`; `invalidVersion`
is `packaging.version.InvalidVersion`; `otherError` stands for any other
`Exception` subclass (`TypeError`, `CalledProcessError`, ...). -/
inductive PyExc
  | gitCommandError
  | invalidVersion
  | otherError
deriving DecidableEq, Repr

/-- External commands the module can issue, recorded as a trace. -/
inductive GitOp
  | fetch
  | pullRebase (branch : String)
  | pullMerge (branch : String)
  | resetMerge
  | checkoutTheirs (path : String)
  | commit (msg : String)
  | pm2Restart (name : String)
  | uvSync
deriving DecidableEq, Repr

/-- The constant `TARGET_BRANCH = "main"` from autoupdate.py. -/
def TARGET_BRANCH : String := "main"

/-- The commit message used by `handle_merge_conflicts`. -/
def resolveMessage : String := "Resolved merge conflicts automatically"

/-! ### Version parsing and comparison

Model of `packaging.version.parse` restricted to dotted numeric release
segments (`N.N.N...`), the format the version manifest contract
guarantees (`__version__ = "X.Y.Z"`).  A string that is not of this form
is unparsable, and `packaging.version.parse` raises `InvalidVersion` on
it.  Release comparison pads the shorter release tuple with zeros and
compares lexicographically, as both PEP 440 and semantic versioning do
for numeric segments. -/

/-- Split a character list at every dot, mirroring `s.split(".")`. -/
def splitDots : List Char → List (List Char)
  | [] => [[]]
  | c :: rest =>
    if c = '.' then [] :: splitDots rest
    else
      match splitDots rest with
      | g :: gs => (c :: g) :: gs
      | [] => [[c]]

/-- Parse one nonempty all-digit segment as a natural number. -/
def parseNatSeg (cs : List Char) : Option Nat :=
  if cs ≠ [] ∧ cs.all Char.isDigit then
    some (cs.foldl (fun n c => n * 10 + (c.toNat - 48)) 0)
  else none

/-- Parse a version string as a list of numeric release segments;
`none` models `packaging.version.parse` raising `InvalidVersion`. -/
def parseRelease (s : String) : Option (List Nat) :=
  (splitDots s.data).mapM parseNatSeg

/-- Zero-pad a release tuple on the right to length `n`. -/
def padZeros (a : List Nat) (n : Nat) : List Nat :=
  a ++ List.replicate (n - a.length) 0

/-- Lexicographic strict comparison of equal-length release tuples. -/
def ltLex : List Nat → List Nat → Bool
  | [], [] => false
  | [], _ :: _ => true
  | _ :: _, [] => false
  | x :: xs, y :: ys => x < y || (x = y && ltLex xs ys)

/-- Strict release precedence: `releaseLt a b` holds iff release `a`
strictly precedes release `b` under standard precedence (zero-padded
lexicographic comparison). -/
def releaseLt (a b : List Nat) : Bool :=
  ltLex (padZeros a (max a.length b.length)) (padZeros b (max a.length b.length))

theorem ltLex_irrefl (l : List Nat) : ltLex l l = false := by
  induction l with
  | nil => rfl
  | cons x xs ih => simp [ltLex, ih]

theorem releaseLt_irrefl (l : List Nat) : releaseLt l l = false := by
  simp [releaseLt, ltLex_irrefl]

/-! ### The world of one cycle -/

/-- Outcomes of every external operation during one update cycle.
`Option PyExc` fields: `none` means the operation succeeded, `some e`
means it raised `e`.  `Except` fields carry a value on success. -/
structure World where
  /-- Result of `get_remote_version()`: `none` when the fetch/read failed
  or no version line was found (the method returned `None`). -/
  remoteVersion : Option String
  /-- Result of `reload(__init__); __init__.__version__`. -/
  reloadResult : Except PyExc String
  /-- The module-level `__version__` captured at process start. -/
  cachedVersion : String
  /-- Outcome of evaluating `self.repo.remotes.origin`. -/
  originOk : Option PyExc
  /-- Result of `self.repo.is_dirty(untracked_files=False)`. -/
  isDirty : Bool
  /-- Outcome of `origin.pull(TARGET_BRANCH, rebase=True)`. -/
  pullRebaseResult : Option PyExc
  /-- Outcome of `self.repo.git.reset("--merge")`. -/
  resetResult : Option PyExc
  /-- Result of `self.repo.active_branch` (raises `TypeError` when HEAD
  is detached). -/
  activeBranchResult : Except PyExc String
  /-- Outcome of the plain-merge `origin.pull(current_branch.name)`. -/
  pullMergeResult : Option PyExc
  /-- The `a_path`s yielded by `self.repo.index.diff(None)`. -/
  diffFiles : List String
  /-- Outcome of `self.repo.git.checkout("--theirs", path)` per path. -/
  checkoutResult : String → Option PyExc
  /-- Outcome of `self.repo.index.commit(...)`. -/
  commitResult : Option PyExc
  /-- Outcome of `subprocess.check_call(["uv", "sync", "--extra", "all"])`. -/
  syncResult : Option PyExc
  /-- Whether `"PM2_HOME" in os.environ`. -/
  pm2HomePresent : Bool
  /-- The `process_name` supplied at construction. -/
  processName : Option String
  /-- Outcome of `subprocess.check_call(["pm2", "restart", name])`. -/
  pm2RestartResult : Option PyExc

/-! ### check_version_updated -/

/-- Lines 66-75: reload the local version, falling back to the cached
`__version__` when the reload raises (`except Exception`). -/
def local_version (w : World) : String :=
  match w.reloadResult with
  | Except.ok v => v
  | Except.error _ => w.cachedVersion

/-- Lines 57-89 of autoupdate.py.  Returns `Except.error e` when the
Python method would let exception `e` escape: the two `version.parse`
calls sit outside every `try`, so an unparsable version propagates. -/
def check_version_updated (w : World) : Except PyExc Bool :=
  match w.remoteVersion with
  | none => Except.ok false
  | some rv =>
    if rv = "" then Except.ok false
    else
      match parseRelease (local_version w) with
      | none => Except.error PyExc.invalidVersion
      | some lvp =>
        match parseRelease rv with
        | none => Except.error PyExc.invalidVersion
        | some rvp => Except.ok (releaseLt lvp rvp)

/-! ### handle_merge_conflicts -/

/-- The `except git.GitCommandError` clause of `handle_merge_conflicts`
(lines 142-147): a `GitCommandError` is caught and turned into
`return False`; any other exception propagates. -/
def catchGitCommandError (e : PyExc) (t : List GitOp) : Except PyExc Bool × List GitOp :=
  match e with
  | PyExc.gitCommandError => (Except.ok false, t)
  | e => (Except.error e, t)

/-- The `for item in self.repo.index.diff(None)` loop (lines 132-135):
issue `git checkout --theirs path` for each path in order, stopping at
the first failure.  Returns the loop's outcome and the ops issued. -/
def checkoutLoop (res : String → Option PyExc) : List String → Except PyExc Unit × List GitOp
  | [] => (Except.ok (), [])
  | f :: rest =>
    match res f with
    | none =>
      match checkoutLoop res rest with
      | (r, t) => (r, GitOp.checkoutTheirs f :: t)
    | some e => (Except.error e, [GitOp.checkoutTheirs f])

/-- Lines 122-147 of autoupdate.py: abort the in-progress merge/rebase
(`git reset --merge`), pull the *active branch* from origin with a plain
merge, `checkout --theirs` every path from `index.diff(None)`, and
commit.  Only `git.GitCommandError` is caught (becoming `ok false`);
other exceptions escape as `Except.error`. -/
def handle_merge_conflicts (w : World) : Except PyExc Bool × List GitOp :=
  match w.resetResult with
  | some e => catchGitCommandError e [GitOp.resetMerge]
  | none =>
    match w.originOk with
    | some e => catchGitCommandError e [GitOp.resetMerge]
    | none =>
      match w.activeBranchResult with
      | Except.error e => catchGitCommandError e [GitOp.resetMerge]
      | Except.ok b =>
        match w.pullMergeResult with
        | some e => catchGitCommandError e [GitOp.resetMerge, GitOp.pullMerge b]
        | none =>
          match checkoutLoop w.checkoutResult w.diffFiles with
          | (Except.error e, tc) =>
            catchGitCommandError e ([GitOp.resetMerge, GitOp.pullMerge b] ++ tc)
          | (Except.ok _, tc) =>
            match w.commitResult with
            | some e =>
              catchGitCommandError e
                ([GitOp.resetMerge, GitOp.pullMerge b] ++ tc ++ [GitOp.commit resolveMessage])
            | none =>
              (Except.ok true,
                [GitOp.resetMerge, GitOp.pullMerge b] ++ tc ++ [GitOp.commit resolveMessage])

/-! ### attempt_update -/

/-- Lines 91-120 of autoupdate.py.  The outer `except Exception`
catches every ordinary exception (including any that escapes
`handle_merge_conflicts`) and returns `False`, so the method itself
always returns a `Bool`. -/
def attempt_update (w : World) : Bool × List GitOp :=
  match w.originOk with
  | some _ => (false, [])
  | none =>
    if w.isDirty then (false, [])
    else
      match w.pullRebaseResult with
      | none => (true, [GitOp.pullRebase TARGET_BRANCH])
      | some PyExc.gitCommandError =>
        match handle_merge_conflicts w with
        | (Except.ok b, tr) => (b, GitOp.pullRebase TARGET_BRANCH :: tr)
        | (Except.error _, tr) => (false, GitOp.pullRebase TARGET_BRANCH :: tr)
      | some _ => (false, [GitOp.pullRebase TARGET_BRANCH])

/-! ### attempt_package_update, restart_app, try_update, run -/

/-- Lines 149-165: run `uv sync --extra all`; `except Exception` swallows
every failure, so the method never raises. -/
def attempt_package_update (w : World) : Except PyExc Unit × List GitOp :=
  match w.syncResult with
  | none => (Except.ok (), [GitOp.uvSync])
  | some _ => (Except.ok (), [GitOp.uvSync])

/-- How one call to `restart_app` ends. -/
inductive RestartOutcome
  | exited (code : Nat)
  | execReplaced
  | raised (e : PyExc)
deriving DecidableEq, Repr

/-- Lines 187-207 of autoupdate.py.  In a PM2 environment a falsy
`process_name` (absent or empty) is a fatal misconfiguration:
`sys.exit(1)` without issuing any pm2 command.  Otherwise
`pm2 restart name` is issued and the process exits with status 1
(`sys.exit` raises `SystemExit`, modelled as `exited`).  Outside PM2 the
process image is replaced via `os.execv`. -/
def restart_app (w : World) : RestartOutcome × List GitOp :=
  if w.pm2HomePresent then
    match w.processName with
    | none => (RestartOutcome.exited 1, [])
    | some name =>
      if name = "" then (RestartOutcome.exited 1, [])
      else
        match w.pm2RestartResult with
        | some e => (RestartOutcome.raised e, [GitOp.pm2Restart name])
        | none => (RestartOutcome.exited 1, [GitOp.pm2Restart name])
  else (RestartOutcome.execReplaced, [])

/-- How one call to `try_update` ends.  `raised` carries an ordinary
`Exception`; `exited` is a propagating `SystemExit` (not an `Exception`
subclass); `execReplaced` means the process image was replaced and
control never returns. -/
inductive CycleOutcome
  | returned
  | raised (e : PyExc)
  | exited (code : Nat)
  | execReplaced
deriving DecidableEq, Repr

/-- Lines 167-185 of autoupdate.py: the per-cycle pipeline. -/
def try_update (w : World) : CycleOutcome × List GitOp :=
  match check_version_updated w with
  | Except.error e => (CycleOutcome.raised e, [])
  | Except.ok false => (CycleOutcome.returned, [])
  | Except.ok true =>
    match attempt_update w with
    | (false, t) => (CycleOutcome.returned, t)
    | (true, t) =>
      match attempt_package_update w with
      | (Except.error e, ts) => (CycleOutcome.raised e, t ++ ts)
      | (Except.ok _, ts) =>
        match restart_app w with
        | (RestartOutcome.exited c, tr) => (CycleOutcome.exited c, t ++ ts ++ tr)
        | (RestartOutcome.execReplaced, tr) => (CycleOutcome.execReplaced, t ++ ts ++ tr)
        | (RestartOutcome.raised e, tr) => (CycleOutcome.raised e, t ++ ts ++ tr)

/-- What one iteration of `run`'s `while True` body does. -/
inductive LoopStep
  | sleptAndContinued (seconds : Nat)
  | terminated (code : Nat)
  | processReplaced
deriving DecidableEq, Repr

/-- Lines 209-217 of autoupdate.py, one iteration: `except Exception`
catches an ordinary exception, logs it, and falls through to
`time.sleep(self.interval_hours * 3600)`; a `SystemExit` is not an
`Exception` and propagates, terminating the loop; `os.execv` replaces
the process. -/
def run_cycle (intervalHours : Nat) (w : World) : LoopStep :=
  match (try_update w).1 with
  | CycleOutcome.returned => LoopStep.sleptAndContinued (intervalHours * 3600)
  | CycleOutcome.raised _ => LoopStep.sleptAndContinued (intervalHours * 3600)
  | CycleOutcome.exited c => LoopStep.terminated c
  | CycleOutcome.execReplaced => LoopStep.processReplaced

/-- The `while True` loop of `run`, driven by a finite prefix of
per-cycle worlds: it keeps iterating as long as cycles end in
sleep-and-continue, and stops at the first terminating step. -/
def run (intervalHours : Nat) : List World → List LoopStep
  | [] => []
  | w :: rest =>
    match run_cycle intervalHours w with
    | LoopStep.sleptAndContinued s => LoopStep.sleptAndContinued s :: run intervalHours rest
    | stop => [stop]

/-! ### Working-tree content model

`applyTrace` interprets a trace of git operations on file contents:
`checkout --theirs path` overwrites the local content of `path` with the
remote branch's content; no other recorded operation rewrites a tracked
file's content. -/

/-- Effect of one traced operation on local file contents, given the
remote branch's contents `rem`. -/
def applyOp (rem loc : String → String) : GitOp → (String → String)
  | GitOp.checkoutTheirs f => fun p => if p = f then rem p else loc p
  | _ => loc

/-- Effect of a whole trace on local file contents. -/
def applyTrace (rem : String → String) (loc : String → String) : List GitOp → (String → String)
  | [] => loc
  | op :: rest => applyTrace rem (applyOp rem loc op) rest

/-- A neutral base world: every external operation succeeds, the tree is
clean, no conflicts, remote version unknown, no PM2. -/
def w0 : World :=
  { remoteVersion := none
    reloadResult := Except.ok "1.0.0"
    cachedVersion := "1.0.0"
    originOk := none
    isDirty := false
    pullRebaseResult := none
    resetResult := none
    activeBranchResult := Except.ok "main"
    pullMergeResult := none
    diffFiles := []
    checkoutResult := fun _ => none
    commitResult := none
    syncResult := none
    pm2HomePresent := false
    processName := none
    pm2RestartResult := none }

/-! ### Helper lemmas -/

theorem catchGitCommandError_error (e e2 : PyExc) (t : List GitOp)
    (h : (catchGitCommandError e t).1 = Except.error e2) : e2 ≠ PyExc.gitCommandError := by
  cases e with
  | gitCommandError => simp [catchGitCommandError] at h
  | invalidVersion =>
    simp [catchGitCommandError] at h
    rw [← h]
    intro hc
    cases hc
  | otherError =>
    simp [catchGitCommandError] at h
    rw [← h]
    intro hc
    cases hc

theorem catchGitCommandError_ne_ok_true (e : PyExc) (t : List GitOp) :
    (catchGitCommandError e t).1 ≠ Except.ok true := by
  cases e <;> simp [catchGitCommandError]

theorem checkoutLoop_ok (res : String → Option PyExc) :
    ∀ (files : List String) (t : List GitOp),
      checkoutLoop res files = (Except.ok (), t) → t = files.map GitOp.checkoutTheirs := by
  intro files
  induction files with
  | nil =>
    intro t h
    rw [checkoutLoop] at h
    exact (Prod.mk.injEq _ _ _ _ ▸ h).2.symm
  | cons f rest ih =>
    intro t h
    rw [checkoutLoop] at h
    rcases hr : res f with _ | e
    · rw [hr] at h
      rcases hcl : checkoutLoop res rest with ⟨r, tc⟩
      rw [hcl] at h
      have h2 := (Prod.mk.injEq _ _ _ _ ▸ h)
      have hrok : r = Except.ok () := h2.1
      have ht : t = GitOp.checkoutTheirs f :: tc := h2.2.symm
      rw [ht, ih tc (by rw [hcl, hrok])]
      rfl
    · rw [hr] at h
      exact absurd (Prod.mk.injEq _ _ _ _ ▸ h).1 (by intro hc; cases hc)

theorem checkoutLoop_of_all_ok (res : String → Option PyExc) :
    ∀ files : List String, (∀ f ∈ files, res f = none) →
      checkoutLoop res files = (Except.ok (), files.map GitOp.checkoutTheirs) := by
  intro files
  induction files with
  | nil => intro _; rfl
  | cons g rest ih =>
    intro h
    simp [checkoutLoop, h g (List.mem_cons_self g rest),
      ih (fun f hf => h f (List.mem_cons_of_mem g hf))]

theorem applyTrace_append (rem loc : String → String) (t1 t2 : List GitOp) :
    applyTrace rem loc (t1 ++ t2) = applyTrace rem (applyTrace rem loc t1) t2 := by
  induction t1 generalizing loc with
  | nil => rfl
  | cons op rest ih => simp [applyTrace, ih]

theorem applyTrace_checkouts_not_mem (rem : String → String) :
    ∀ (files : List String) (loc : String → String) (f : String), f ∉ files →
      applyTrace rem loc (files.map GitOp.checkoutTheirs) f = loc f := by
  intro files
  induction files with
  | nil => intro loc f _; rfl
  | cons g rest ih =>
    intro loc f hf
    have hne : f ≠ g := fun hc => hf (hc ▸ List.mem_cons_self g rest)
    have hrest : f ∉ rest := fun hc => hf (List.mem_cons_of_mem g hc)
    simp only [List.map, applyTrace, applyOp]
    rw [ih _ f hrest]
    simp [hne]

theorem applyTrace_checkouts_mem (rem : String → String) :
    ∀ (files : List String) (loc : String → String) (f : String), f ∈ files →
      applyTrace rem loc (files.map GitOp.checkoutTheirs) f = rem f := by
  intro files
  induction files with
  | nil => intro loc f hf; cases hf
  | cons g rest ih =>
    intro loc f hf
    by_cases hr : f ∈ rest
    · simp only [List.map, applyTrace, applyOp]
      exact ih _ f hr
    · have hfg : f = g := by
        rcases List.mem_cons.mp hf with h | h
        · exact h
        · exact absurd h hr
      simp only [List.map, applyTrace, applyOp]
      rw [applyTrace_checkouts_not_mem rem rest _ f hr]
      simp [hfg]

/-! ### Claim C1 -/

/-- Claim C1, counterexample: with an unparsable remote version string,
`check_version_updated` does not return `False`; the
`packaging.version.InvalidVersion` raised by `version.parse` (which sits
outside every `try` block) propagates out of the method. -/
theorem check_version_unparsable_raises :
    check_version_updated { w0 with remoteVersion := some "garbage" }
        = Except.error PyExc.invalidVersion
    ∧ check_version_updated { w0 with remoteVersion := some "garbage" } ≠ Except.ok false := by
  decide

/-- Claim C1 (amended): `check_version_updated` returns true iff the
remote version string was obtained (non-`None`, nonempty), both version
strings parse, and the remote release strictly precedes-from-below the
local one (`releaseLt local remote`); a missing or empty remote version
yields `False`; equal versions yield `False` (`releaseLt` is
irreflexive); but an unparsable version makes the method raise a parse
error rather than return `False`. -/
theorem check_version_updated_spec (w : World) :
    (w.remoteVersion = none → check_version_updated w = Except.ok false)
    ∧ (w.remoteVersion = some "" → check_version_updated w = Except.ok false)
    ∧ (∀ rv lvp rvp, w.remoteVersion = some rv → rv ≠ "" →
        parseRelease (local_version w) = some lvp → parseRelease rv = some rvp →
        check_version_updated w = Except.ok (releaseLt lvp rvp))
    ∧ (∀ rv, w.remoteVersion = some rv → rv ≠ "" →
        (parseRelease (local_version w) = none ∨ parseRelease rv = none) →
        check_version_updated w = Except.error PyExc.invalidVersion)
    ∧ (check_version_updated w = Except.ok true →
        ∃ rv lvp rvp, w.remoteVersion = some rv ∧ parseRelease (local_version w) = some lvp
          ∧ parseRelease rv = some rvp ∧ releaseLt lvp rvp = true)
    ∧ (∀ l, releaseLt l l = false) := by
  refine ⟨?_, ?_, ?_, ?_, ?_, releaseLt_irrefl⟩
  · intro h; simp [check_version_updated, h]
  · intro h; simp [check_version_updated, h]
  · intro rv lvp rvp hr hne hl hp
    simp [check_version_updated, hr, hne, hl, hp]
  · intro rv hr hne hd
    rcases hd with hd | hd
    · simp [check_version_updated, hr, hne, hd]
    · rcases hl : parseRelease (local_version w) with _ | lvp
      · simp [check_version_updated, hr, hne, hl]
      · simp [check_version_updated, hr, hne, hl, hd]
  · intro h
    rcases hr : w.remoteVersion with _ | rv
    · simp [check_version_updated, hr] at h
    · by_cases hne : rv = ""
      · rw [hne] at hr
        simp [check_version_updated, hr] at h
      · rcases hl : parseRelease (local_version w) with _ | lvp
        · simp [check_version_updated, hr, hne, hl] at h
        · rcases hp : parseRelease rv with _ | rvp
          · simp [check_version_updated, hr, hne, hl, hp] at h
          · refine ⟨rv, lvp, rvp, rfl, rfl, hp, ?_⟩
            simp [check_version_updated, hr, hne, hl, hp] at h
            exact h

/-- Claim C1, witness: "0.3.0" is strictly newer than "0.2.9", so the
check reports an update. -/
theorem check_version_updated_spec_witness :
    check_version_updated
        { w0 with remoteVersion := some "0.3.0", reloadResult := Except.ok "0.2.9" }
      = Except.ok true := by
  have h :=
    (check_version_updated_spec
        { w0 with remoteVersion := some "0.3.0", reloadResult := Except.ok "0.2.9" }).2.2.1
      "0.3.0" [0, 2, 9] [0, 3, 0] rfl (by decide) (by decide) (by decide)
  rw [h]
  decide

/-! ### Claim C2 -/

/-- Claim C2: on a dirty working tree `attempt_update` returns `False`
immediately, issues no external git command at all (in particular no
pull and no commit), and therefore leaves every file's content
unchanged. -/
theorem attempt_update_dirty_noop (w : World) (hd : w.isDirty = true) :
    attempt_update w = (false, [])
    ∧ (∀ rem loc, applyTrace rem loc (attempt_update w).2 = loc) := by
  have h : attempt_update w = (false, []) := by
    rcases ho : w.originOk with _ | e
    · simp [attempt_update, ho, hd]
    · simp [attempt_update, ho]
  refine ⟨h, fun rem loc => ?_⟩
  rw [h]
  rfl

/-- Claim C2, witness: a concrete dirty world. -/
theorem attempt_update_dirty_noop_witness :
    attempt_update { w0 with isDirty := true } = (false, []) :=
  (attempt_update_dirty_noop { w0 with isDirty := true } rfl).1

/-! ### Claim C3 -/

/-- Claim C3, counterexample: GitPython raises `git.GitCommandError`
whenever the `git pull` subprocess fails — for merge conflicts, but
equally for network, auth, and `kill_after_timeout` failures, all of
which make git exit non-zero — and `attempt_update` discriminates only
on that exception class.  A pull failure of this class therefore
invokes the conflict resolver (the trace contains the resolver's merge
abort and plain-merge pull) and returns the resolver's result, instead
of logging and returning `False` without conflict resolution as the
claim asserts for non-conflict pull failures. -/
theorem attempt_update_resolves_any_git_command_error :
    (attempt_update { w0 with pullRebaseResult := some PyExc.gitCommandError }).1 = true
    ∧ GitOp.resetMerge
        ∈ (attempt_update { w0 with pullRebaseResult := some PyExc.gitCommandError }).2
    ∧ GitOp.pullMerge "main"
        ∈ (attempt_update { w0 with pullRebaseResult := some PyExc.gitCommandError }).2 := by
  decide

/-- Claim C3 (amended): `attempt_update` distinguishes pull failures
solely by exception class: a pull raising `git.GitCommandError` — the
class git surfaces for conflicts and equally for network, auth, and
timeout command failures — invokes `handle_merge_conflicts` and
returns its result; only a pull failure raising a non-`GitCommandError`
exception is logged and returns `False` with no conflict-resolution
command issued (the trace stays at just the attempted pull). -/
theorem attempt_update_failure_routing (w : World)
    (ho : w.originOk = none) (hd : w.isDirty = false) :
    (∀ e, w.pullRebaseResult = some e → e ≠ PyExc.gitCommandError →
        attempt_update w = (false, [GitOp.pullRebase TARGET_BRANCH]))
    ∧ (∀ b tr, w.pullRebaseResult = some PyExc.gitCommandError →
        handle_merge_conflicts w = (Except.ok b, tr) →
        attempt_update w = (b, GitOp.pullRebase TARGET_BRANCH :: tr)) := by
  constructor
  · intro e he hne
    cases e with
    | gitCommandError => exact absurd rfl hne
    | invalidVersion => simp [attempt_update, ho, hd, he]
    | otherError => simp [attempt_update, ho, hd, he]
  · intro b tr hp hres
    simp [attempt_update, ho, hd, hp, hres]

/-- Claim C3, witness: a non-git-command pull failure returns `False`
without touching the conflict resolver. -/
theorem attempt_update_failure_routing_witness :
    attempt_update { w0 with pullRebaseResult := some PyExc.otherError }
      = (false, [GitOp.pullRebase TARGET_BRANCH]) :=
  (attempt_update_failure_routing { w0 with pullRebaseResult := some PyExc.otherError }
      rfl rfl).1 PyExc.otherError rfl (by decide)

/-! ### Claim C10 -/

/-- Claim C10: when the fresh reload of the local version module fails,
`check_version_updated` falls back to the `__version__` captured when
the module was first loaded, and the comparison still completes against
that possibly stale value. -/
theorem reload_failure_falls_back (w : World) (e : PyExc)
    (hr : w.reloadResult = Except.error e) :
    local_version w = w.cachedVersion
    ∧ check_version_updated w
        = check_version_updated { w with reloadResult := Except.ok w.cachedVersion }
    ∧ (∀ rv lvp rvp, w.remoteVersion = some rv → rv ≠ "" →
        parseRelease w.cachedVersion = some lvp → parseRelease rv = some rvp →
        check_version_updated w = Except.ok (releaseLt lvp rvp)) := by
  have hl : local_version w = w.cachedVersion := by simp [local_version, hr]
  refine ⟨hl, ?_, ?_⟩
  · simp [check_version_updated, local_version, hr]
  · intro rv lvp rvp h1 h2 h3 h4
    have h5 : parseRelease (local_version w) = some lvp := by rw [hl]; exact h3
    simp [check_version_updated, h1, h2, h5, h4]

/-- Claim C10, witness: a failing reload still yields a completed
comparison against the cached local version. -/
theorem reload_failure_falls_back_witness :
    check_version_updated
        { w0 with remoteVersion := some "2.0.0", reloadResult := Except.error PyExc.otherError }
      = Except.ok true := by
  have h :=
    (reload_failure_falls_back
        { w0 with remoteVersion := some "2.0.0", reloadResult := Except.error PyExc.otherError }
        PyExc.otherError rfl).2.2 "2.0.0" [1, 0, 0] [2, 0, 0] rfl (by decide) (by decide)
      (by decide)
  rw [h]
  decide

/-! ### Claim C4 -/

/-- Test for the synthetic resolution commit in a trace. -/
def isCommitOp : GitOp → Bool
  | GitOp.commit _ => true
  | _ => false

theorem countP_commit_map_checkout (files : List String) :
    (files.map GitOp.checkoutTheirs).countP isCommitOp = 0 := by
  induction files with
  | nil => rfl
  | cons f rest ih => simp [List.countP_cons, isCommitOp, ih]

/-- On a fully successful resolution, `handle_merge_conflicts` issued
exactly: the merge abort, one plain-merge pull of the *active* branch,
one `checkout --theirs` per diff path, and the resolution commit. -/
theorem handle_merge_conflicts_ok_shape (w : World) (b : String)
    (hb : w.activeBranchResult = Except.ok b)
    (hs : (handle_merge_conflicts w).1 = Except.ok true) :
    handle_merge_conflicts w
      = (Except.ok true,
          GitOp.resetMerge :: GitOp.pullMerge b ::
            (w.diffFiles.map GitOp.checkoutTheirs ++ [GitOp.commit resolveMessage])) := by
  rcases h1 : w.resetResult with _ | e1
  · rcases h2 : w.originOk with _ | e2
    · rcases h4 : w.pullMergeResult with _ | e4
      · rcases hcl : checkoutLoop w.checkoutResult w.diffFiles with ⟨r, tc⟩
        rcases r with e5 | u
        · simp [handle_merge_conflicts, h1, h2, hb, h4, hcl] at hs
          exact absurd hs (catchGitCommandError_ne_ok_true e5 _)
        · rcases h6 : w.commitResult with _ | e6
          · have htc : tc = w.diffFiles.map GitOp.checkoutTheirs := by
              apply checkoutLoop_ok w.checkoutResult w.diffFiles tc
              rw [hcl]
            simp [handle_merge_conflicts, h1, h2, hb, h4, hcl, h6, htc]
          · simp [handle_merge_conflicts, h1, h2, hb, h4, hcl, h6] at hs
            exact absurd hs (catchGitCommandError_ne_ok_true e6 _)
      · simp [handle_merge_conflicts, h1, h2, hb, h4] at hs
        exact absurd hs (catchGitCommandError_ne_ok_true e4 _)
    · simp [handle_merge_conflicts, h1, h2] at hs
      exact absurd hs (catchGitCommandError_ne_ok_true e2 _)
  · simp [handle_merge_conflicts, h1] at hs
    exact absurd hs (catchGitCommandError_ne_ok_true e1 _)

/-- Claim C4, counterexample: with the active branch "dev" (not the
target branch "main"), a successful resolution pulls origin/dev, never
origin/main — `handle_merge_conflicts` re-pulls the *current* branch,
not the target branch the claim names. -/
theorem handle_merge_conflicts_pulls_current_branch :
    (handle_merge_conflicts
        { w0 with activeBranchResult := Except.ok "dev", diffFiles := ["a.py"] }).1
      = Except.ok true
    ∧ GitOp.pullMerge TARGET_BRANCH
        ∉ (handle_merge_conflicts
            { w0 with activeBranchResult := Except.ok "dev", diffFiles := ["a.py"] }).2
    ∧ GitOp.pullMerge "dev"
        ∈ (handle_merge_conflicts
            { w0 with activeBranchResult := Except.ok "dev", diffFiles := ["a.py"] }).2 := by
  decide

/-- Claim C4 (amended): on a conflicting pull, `handle_merge_conflicts`
aborts the in-progress merge/rebase, re-pulls the *current active
branch* (not necessarily the target branch) from origin with a plain
merge, overwrites every path enumerated by `index.diff(None)` with the
remote ("theirs") content, and creates exactly one synthetic resolution
commit; on success every enumerated path's content equals the remote
content. -/
theorem handle_merge_conflicts_success_shape (w : World) (b : String)
    (hb : w.activeBranchResult = Except.ok b)
    (hs : (handle_merge_conflicts w).1 = Except.ok true) :
    (handle_merge_conflicts w).2
        = GitOp.resetMerge :: GitOp.pullMerge b ::
            (w.diffFiles.map GitOp.checkoutTheirs ++ [GitOp.commit resolveMessage])
    ∧ ((handle_merge_conflicts w).2.countP isCommitOp) = 1
    ∧ (∀ rem loc f, f ∈ w.diffFiles →
        applyTrace rem loc ((handle_merge_conflicts w).2) f = rem f) := by
  have h := handle_merge_conflicts_ok_shape w b hb hs
  have ht : (handle_merge_conflicts w).2
      = GitOp.resetMerge :: GitOp.pullMerge b ::
          (w.diffFiles.map GitOp.checkoutTheirs ++ [GitOp.commit resolveMessage]) := by
    rw [h]
  refine ⟨ht, ?_, ?_⟩
  · rw [ht]
    simp [List.countP_cons, List.countP_append, isCommitOp, countP_commit_map_checkout]
  · intro rem loc f hf
    rw [ht]
    simp only [applyTrace, applyOp]
    rw [applyTrace_append]
    simp only [applyTrace, applyOp]
    exact applyTrace_checkouts_mem rem w.diffFiles loc f hf

/-- Claim C4, witness: one conflicted file on branch "dev" produces the
four-command trace with its single resolution commit. -/
theorem handle_merge_conflicts_success_shape_witness :
    (handle_merge_conflicts
        { w0 with activeBranchResult := Except.ok "dev", diffFiles := ["a.py"] }).2
      = [GitOp.resetMerge, GitOp.pullMerge "dev", GitOp.checkoutTheirs "a.py",
          GitOp.commit resolveMessage] := by
  have h :=
    (handle_merge_conflicts_success_shape
        { w0 with activeBranchResult := Except.ok "dev", diffFiles := ["a.py"] }
        "dev" rfl (by decide)).1
  rw [h]
  decide

/-! ### Claim C5 -/

/-- Every exception that escapes `handle_merge_conflicts` is something
other than `git.GitCommandError` — the resolver's `except` clause
catches exactly the git command errors. -/
theorem handle_merge_conflicts_error_not_git (w : World) (e2 : PyExc)
    (h : (handle_merge_conflicts w).1 = Except.error e2) : e2 ≠ PyExc.gitCommandError := by
  rcases h1 : w.resetResult with _ | e1
  · rcases h2 : w.originOk with _ | e2x
    · rcases hb : w.activeBranchResult with e3 | b
      · simp only [handle_merge_conflicts, h1, h2, hb] at h
        exact catchGitCommandError_error e3 e2 _ h
      · rcases h4 : w.pullMergeResult with _ | e4
        · rcases hcl : checkoutLoop w.checkoutResult w.diffFiles with ⟨r, tc⟩
          rcases r with e5 | u
          · simp only [handle_merge_conflicts, h1, h2, hb, h4, hcl] at h
            exact catchGitCommandError_error e5 e2 _ h
          · rcases h6 : w.commitResult with _ | e6
            · simp [handle_merge_conflicts, h1, h2, hb, h4, hcl, h6] at h
            · simp only [handle_merge_conflicts, h1, h2, hb, h4, hcl, h6] at h
              exact catchGitCommandError_error e6 e2 _ h
        · simp only [handle_merge_conflicts, h1, h2, hb, h4] at h
          exact catchGitCommandError_error e4 e2 _ h
    · simp only [handle_merge_conflicts, h1, h2] at h
      exact catchGitCommandError_error e2x e2 _ h
  · simp only [handle_merge_conflicts, h1] at h
    exact catchGitCommandError_error e1 e2 _ h

/-- Claim C5, counterexample, refuting both parenthetical guarantees:
(i) a step failing with a non-git exception (here
`self.repo.active_branch` raising `TypeError` on a detached HEAD)
escapes `handle_merge_conflicts` instead of making it return `False` —
only `git.GitCommandError` is caught; (ii) when the synthetic commit
fails after the checkout loop, resolve returns `False` with the
enumerated file already overwritten to the remote content and nothing
committed — a half-merged state is presented to the caller. -/
theorem handle_merge_conflicts_nongit_escapes :
    ((handle_merge_conflicts
          { w0 with activeBranchResult := Except.error PyExc.otherError }).1
        = Except.error PyExc.otherError
      ∧ (handle_merge_conflicts
            { w0 with activeBranchResult := Except.error PyExc.otherError }).1
          ≠ Except.ok false)
    ∧ ((handle_merge_conflicts
          { w0 with diffFiles := ["a.py"],
                    commitResult := some PyExc.gitCommandError }).1
        = Except.ok false
      ∧ applyTrace (fun _ => "remote") (fun _ => "local")
          (handle_merge_conflicts
            { w0 with diffFiles := ["a.py"],
                      commitResult := some PyExc.gitCommandError }).2 "a.py"
        = "remote") := by
  decide

/-- Claim C5 (amended): a failing resolution either returns `False`
(every `git.GitCommandError` is caught and logged) or lets a non-git
exception escape; in the latter case the exception is not a
`GitCommandError`, and either way the enclosing `attempt_update`
handler turns the failed resolution into a `False` return.  The abort
does not undo earlier steps: when the synthetic commit fails with a git
error after the checkout loop succeeded, resolve returns `False` with
every enumerated file already overwritten to the remote content — a
half-merged, uncommitted state is presented to the caller. -/
theorem handle_merge_conflicts_failure_behavior (w : World)
    (hf : (handle_merge_conflicts w).1 ≠ Except.ok true) :
    ((handle_merge_conflicts w).1 = Except.ok false
      ∨ ∃ e, e ≠ PyExc.gitCommandError ∧ (handle_merge_conflicts w).1 = Except.error e)
    ∧ (w.originOk = none → w.isDirty = false →
        w.pullRebaseResult = some PyExc.gitCommandError → (attempt_update w).1 = false)
    ∧ (∀ b, w.resetResult = none → w.originOk = none →
        w.activeBranchResult = Except.ok b → w.pullMergeResult = none →
        (∀ f ∈ w.diffFiles, w.checkoutResult f = none) →
        w.commitResult = some PyExc.gitCommandError →
        (handle_merge_conflicts w).1 = Except.ok false
        ∧ (∀ rem loc f, f ∈ w.diffFiles →
            applyTrace rem loc ((handle_merge_conflicts w).2) f = rem f)) := by
  refine ⟨?_, ?_, ?_⟩
  · rcases hres : (handle_merge_conflicts w).1 with e | b
    · exact Or.inr ⟨e, handle_merge_conflicts_error_not_git w e hres, rfl⟩
    · cases b with
      | false => exact Or.inl rfl
      | true => exact absurd hres hf
  · intro ho hd hp
    rcases hm : handle_merge_conflicts w with ⟨r, tr⟩
    rcases r with e | bb
    · simp [attempt_update, ho, hd, hp, hm]
    · have hbb : bb = false := by
        rcases Bool.eq_false_or_eq_true bb with h | h
        · rw [h] at hm
          exact absurd (by rw [hm]) hf
        · exact h
      rw [hbb] at hm
      simp [attempt_update, ho, hd, hp, hm]
  · intro b h1 h2 hb h4 hco h6
    have hcl := checkoutLoop_of_all_ok w.checkoutResult w.diffFiles hco
    have hm : handle_merge_conflicts w
        = (Except.ok false,
            GitOp.resetMerge :: GitOp.pullMerge b ::
              (w.diffFiles.map GitOp.checkoutTheirs ++ [GitOp.commit resolveMessage])) := by
      simp [handle_merge_conflicts, h1, h2, hb, h4, hcl, h6, catchGitCommandError]
    constructor
    · rw [hm]
    · intro rem loc f hfm
      rw [hm]
      simp only [applyTrace, applyOp]
      rw [applyTrace_append]
      simp only [applyTrace, applyOp]
      exact applyTrace_checkouts_mem rem w.diffFiles loc f hfm

/-- Claim C5, witness: a git-command failure of the very first step
(the merge abort) makes the whole `attempt_update` return `False`. -/
theorem handle_merge_conflicts_failure_behavior_witness :
    (attempt_update
        { w0 with pullRebaseResult := some PyExc.gitCommandError,
                  resetResult := some PyExc.gitCommandError }).1 = false :=
  (handle_merge_conflicts_failure_behavior
      { w0 with pullRebaseResult := some PyExc.gitCommandError,
                resetResult := some PyExc.gitCommandError }
      (by decide)).2.1 rfl rfl rfl

/-! ### Claim C6 -/

/-- Claim C6: an ordinary exception raised anywhere inside one cycle is
caught by the loop's `except Exception`, the loop sleeps the configured
`interval_hours * 3600` seconds, and re-enters the next cycle — it
never terminates because of the failed cycle. -/
theorem run_survives_cycle_exception (i : Nat) (w : World) (rest : List World) (e : PyExc)
    (h : (try_update w).1 = CycleOutcome.raised e) :
    run_cycle i w = LoopStep.sleptAndContinued (i * 3600)
    ∧ run i (w :: rest) = LoopStep.sleptAndContinued (i * 3600) :: run i rest := by
  have h1 : run_cycle i w = LoopStep.sleptAndContinued (i * 3600) := by
    rw [run_cycle, h]
  exact ⟨h1, by simp [run, h1]⟩

/-- Claim C6, witness: a cycle whose version check raises
`InvalidVersion` ends in a 14400-second sleep, not in termination. -/
theorem run_survives_cycle_exception_witness :
    run 4 [{ w0 with remoteVersion := some "x" }] = [LoopStep.sleptAndContinued 14400] := by
  have h :=
    (run_survives_cycle_exception 4 { w0 with remoteVersion := some "x" } []
        PyExc.invalidVersion (by decide)).2
  rw [h]
  decide

/-! ### Claim C7 -/

/-- Claim C7: in the PM2-managed branch with no `process_name`
configured, `restart_app` exits with status 1 (non-zero) and issues no
pm2 restart command. -/
theorem restart_app_managed_missing_name (w : World)
    (hp : w.pm2HomePresent = true) (hn : w.processName = none) :
    restart_app w = (RestartOutcome.exited 1, [])
    ∧ (1 : Nat) ≠ 0
    ∧ (∀ n, GitOp.pm2Restart n ∉ (restart_app w).2) := by
  have h : restart_app w = (RestartOutcome.exited 1, []) := by
    simp [restart_app, hp, hn]
  refine ⟨h, by decide, fun n => ?_⟩
  rw [h]
  simp

/-- Claim C7, witness: PM2 environment, no process name. -/
theorem restart_app_managed_missing_name_witness :
    restart_app { w0 with pm2HomePresent := true } = (RestartOutcome.exited 1, []) :=
  (restart_app_managed_missing_name { w0 with pm2HomePresent := true } rfl rfl).1

/-! ### Claim C8 -/

/-- The dependency sync is best-effort by construction: whatever the
`uv sync` subprocess does, `attempt_package_update` returns normally. -/
theorem attempt_package_update_total (x : World) :
    attempt_package_update x = (Except.ok (), [GitOp.uvSync]) := by
  rcases hs : x.syncResult with _ | e <;> simp [attempt_package_update, hs]

/-- Claim C8: `attempt_package_update` never raises — both the success
and the failure of the external sync command produce a normal return —
and in `try_update` the cycle proceeds to `restart_app` regardless: once
the update succeeded, the cycle's outcome is exactly `restart_app`'s
outcome, independent of the sync result. -/
theorem package_update_best_effort (w : World)
    (hv : check_version_updated w = Except.ok true)
    (hu : (attempt_update w).1 = true) :
    (attempt_package_update w).1 = Except.ok ()
    ∧ (try_update w).1
        = (match (restart_app w).1 with
            | RestartOutcome.exited c => CycleOutcome.exited c
            | RestartOutcome.execReplaced => CycleOutcome.execReplaced
            | RestartOutcome.raised e => CycleOutcome.raised e)
    ∧ (∀ r, (try_update { w with syncResult := r }).1 = (try_update w).1) := by
  have hpk : ∀ x : World, attempt_package_update x = (Except.ok (), [GitOp.uvSync]) :=
    attempt_package_update_total
  rcases hau : attempt_update w with ⟨b, t⟩
  have hb : b = true := by rw [hau] at hu; exact hu
  rw [hb] at hau
  refine ⟨by rw [hpk w], ?_, ?_⟩
  · rcases hra : restart_app w with ⟨ro, tr⟩
    rcases ro with c | _ | e <;> simp [try_update, hv, hau, hpk w, hra]
  · intro r
    have hv2 : check_version_updated { w with syncResult := r } = Except.ok true := hv
    have hau2 : attempt_update { w with syncResult := r } = (true, t) := hau
    have hra2 : restart_app { w with syncResult := r } = restart_app w := rfl
    rcases hra : restart_app w with ⟨ro, tr⟩
    rw [hra] at hra2
    rcases ro with c | _ | e <;>
      simp [try_update, hv, hv2, hau, hau2, hpk, hra, hra2]

/-- Claim C8, witness: with a failing `uv sync`, the cycle still reaches
the restart (here the self re-exec branch). -/
theorem package_update_best_effort_witness :
    (try_update { w0 with remoteVersion := some "2.0.0",
                          syncResult := some PyExc.otherError }).1
      = CycleOutcome.execReplaced := by
  have h :=
    (package_update_best_effort
        { w0 with remoteVersion := some "2.0.0", syncResult := some PyExc.otherError }
        (by decide) (by decide)).2.1
  rw [h]
  decide

/-! ### Claim C9 -/

/-- Claim C9: the per-cycle `except Exception` does not catch
`SystemExit`: when the managed branch of `restart_app` calls
`sys.exit(1)`, the whole cycle ends in `exited 1`, `run`'s loop body
terminates instead of sleeping, and the loop does not re-enter. -/
theorem managed_exit_propagates (i : Nat) (w : World) (rest : List World) (n : String)
    (hv : check_version_updated w = Except.ok true)
    (hu : (attempt_update w).1 = true)
    (hp : w.pm2HomePresent = true) (hn : w.processName = some n) (hne : n ≠ "")
    (hr : w.pm2RestartResult = none) :
    (try_update w).1 = CycleOutcome.exited 1
    ∧ run_cycle i w = LoopStep.terminated 1
    ∧ run i (w :: rest) = [LoopStep.terminated 1]
    ∧ (∀ s, run_cycle i w ≠ LoopStep.sleptAndContinued s) := by
  have hra : restart_app w = (RestartOutcome.exited 1, [GitOp.pm2Restart n]) := by
    simp [restart_app, hp, hn, hne, hr]
  rcases hau : attempt_update w with ⟨b, t⟩
  have hb : b = true := by rw [hau] at hu; exact hu
  rw [hb] at hau
  have htry : (try_update w).1 = CycleOutcome.exited 1 := by
    simp [try_update, hv, hau, attempt_package_update_total w, hra]
  have hrc : run_cycle i w = LoopStep.terminated 1 := by
    rw [run_cycle, htry]
  refine ⟨htry, hrc, by simp [run, hrc], fun s => ?_⟩
  rw [hrc]
  simp

/-- Claim C9, witness: a full managed-restart cycle terminates the loop
with exit status 1. -/
theorem managed_exit_propagates_witness :
    run 4 [{ w0 with remoteVersion := some "2.0.0", pm2HomePresent := true,
                     processName := some "miner" }]
      = [LoopStep.terminated 1] :=
  (managed_exit_propagates 4
      { w0 with remoteVersion := some "2.0.0", pm2HomePresent := true,
                processName := some "miner" }
      [] "miner" (by decide) (by decide) rfl rfl (by decide) rfl).2.2.1

end Templar
